import Mathlib

/-!
Verification development for the YoutubeDownloader-Mac repository.

A shallow embedding of the queue/dispatcher core (`src/modules/gui.py`)
and of the extraction-adapter helpers (`src/modules/downloader.py`),
followed by theorems settling the specification claims.

Python strings are modelled by `String`; byte counts, speeds and
percentages (Python floats used only through division and comparison)
by `ℚ`; Python dicts with optional keys by `Option` fields; a raised
exception by `Except.error`.
-/

namespace YTDL

/-- The six task statuses of `DownloadTask.status`
(等待中 / 下载中 / 已完成 / 已暂停 / 已取消 / 失败). -/
inductive TaskStatus where
  | pending
  | running
  | completed
  | paused
  | canceled
  | failed
deriving DecidableEq

/-- The mutable fields of `DownloadTask` (gui.py lines 17-50) that the
modelled transitions touch; the immutable request fields (url, kind,
options, save path) are carried by the registry key and never read by
the modelled control logic. -/
structure DownloadTask where
  status : TaskStatus
  progress : ℚ
  speed : String
  eta : String
  title : String
  filename : String
deriving DecidableEq

/-- A freshly constructed task (gui.py lines 28-33). -/
def DownloadTask.init : DownloadTask :=
  { status := .pending
    progress := 0
    speed := ""
    eta := ""
    title := "获取中..."
    filename := "" }

/-- Method `DownloadTask.update_progress` (gui.py lines 37-45): sets
progress/speed/eta, then status 下载中 when percent < 100 else 已完成. -/
def DownloadTask.update_progress (t : DownloadTask) (percent : ℚ)
    (speed eta : String) : DownloadTask :=
  { t with
    progress := percent
    speed := speed
    eta := eta
    status := if percent < 100 then .running else .completed }

/-- Method `DownloadTask.cancel` (gui.py lines 47-50): unconditionally sets
status 已取消 and returns True. -/
def DownloadTask.cancel (t : DownloadTask) : DownloadTask × Bool :=
  ({ t with status := .canceled }, true)

/-! ## Subtitle language resolution (downloader.py lines 160-195) -/

/-- The ordered Chinese locale variant list (downloader.py line 173). -/
def chinese_codes : List String := ["zh", "zh-CN", "zh-Hans", "zh-Hant", "zh-TW"]

/-- Python `s.startswith(pre)` at the character level (the Lean library's
`String.startsWith` is defined by well-founded recursion on byte
positions and does not reduce definitionally, so it is unusable in
kernel-checked evaluation). -/
def strStartsWith (s pre : String) : Bool := pre.data.isPrefixOf s.data

/-- Python `s.endswith(suf)` at the character level. -/
def strEndsWith (s suf : String) : Bool := suf.data.isSuffixOf s.data

/-- The metadata probe's subtitle availability maps: keys of
`info['subtitles']` and `info['automatic_captions']`. -/
structure SubtitleInfo where
  subtitles : List String
  automatic_captions : List String

/-- Variable `available_subs` (downloader.py lines 164-168): the union of manual
and automatic caption language codes. -/
def available_subs (info : SubtitleInfo) : List String :=
  info.subtitles.union info.automatic_captions

/-- The language-resolution loop (downloader.py lines 172-189): a
requested code starting with "zh" scans `chinese_codes` in order for the
first code available; any other code is matched verbatim; when no match
was found, "en" is used when available. -/
def resolve_subtitle_language (language : String) (avail : List String) :
    Option String :=
  let target : Option String :=
    if strStartsWith language "zh" then
      chinese_codes.find? (fun c => avail.contains c)
    else
      if avail.contains language then some language else none
  match target with
  | some t => some t
  | none => if avail.contains "en" then some "en" else none

/-- The failure message of downloader.py line 194
(该视频既没有{language}语言的字幕，也没有英文字幕). -/
def subtitle_no_match_error (language : String) : String :=
  "该视频既没有" ++ language ++ "语言的字幕，也没有英文字幕"

/-- The outcome of the resolution phase of `download_subtitles`
(downloader.py lines 172-195): the resolved target language, or the
structured failure record's error string. -/
def subtitle_target_or_error (language : String) (info : SubtitleInfo) :
    Except String String :=
  match resolve_subtitle_language language (available_subs info) with
  | some t => Except.ok t
  | none => Except.error (subtitle_no_match_error language)

/-! ## Progress hooks (downloader.py lines 29-51 and 236-257)

The class body defines `_progress_hook` twice; the second definition
(lines 236-257) shadows the first (lines 29-51), so the second is the
one bound on `YouTubeDownloader` instances. -/

/-- The dict passed by the external library to a progress hook; `none`
models an absent key (or a `None` value where Python tests truthiness).
`speed_str_hint` / `eta_str_hint` model the preformatted
`_speed_str` / `_eta_str` entries read only by the shadowed hook. -/
structure ProgressEvent where
  status : String
  downloaded_bytes : Option ℚ
  total_bytes : Option ℚ
  total_bytes_estimate : Option ℚ
  speed : Option ℚ
  eta : Option ℤ
  speed_str_hint : Option String
  eta_str_hint : Option String
deriving DecidableEq

/-- Python truthiness of `d.get(key)` for a numeric entry: false when
the key is absent (or `None`) or the value is zero. -/
def pyTruthy (o : Option ℚ) : Bool :=
  match o with
  | none => false
  | some x => x != 0

/-- Round-half-to-even on an exact rational, an idealisation of the
rounding performed by Python's fixed-point float formatting. -/
def round_half_even (q : ℚ) : ℤ :=
  let f := ⌊q⌋
  let r := q - f
  if r < 1/2 then f else if 1/2 < r then f + 1 else if f % 2 = 0 then f else f + 1

/-- One-decimal rendering of a (nonnegative) rational, the rational
idealisation of Python's f"\x7bx:.1f\x7d". -/
def fmt1 (q : ℚ) : String :=
  let n := round_half_even (q * 10)
  toString (n / 10) ++ "." ++ toString (n % 10)

/-- Line `total_bytes = d.get(..) or d.get(.., 0)` of the effective hook
(downloader.py line 239). -/
def progress_hook_total (d : ProgressEvent) : ℚ :=
  if pyTruthy d.total_bytes then d.total_bytes.getD 0
  else d.total_bytes_estimate.getD 0

/-- The speed string of downloader.py lines 245-249: MB/s formatting
when `speed` is truthy, 未知 otherwise. -/
def progress_hook_speed_str (d : ProgressEvent) : String :=
  match d.speed with
  | some sp => if sp ≠ 0 then fmt1 (sp / 1024 / 1024) ++ " MB/s" else "未知"
  | none => "未知"

/-- The eta string of downloader.py lines 251-255. -/
def progress_hook_eta_str (d : ProgressEvent) : String :=
  match d.eta with
  | some e => if e ≠ 0 then toString e ++ "秒" else "未知"
  | none => "未知"

/-- The effective `_progress_hook` (second definition, downloader.py
lines 236-257): fires only when the event has a `downloaded_bytes`
entry (and a callback is installed); the result is the argument triple
(percent, speed string, eta string) passed to the callback, `none` when
the callback is not invoked.  The event's status tag is never read. -/
def progress_hook (d : ProgressEvent) : Option (ℚ × String × String) :=
  match d.downloaded_bytes with
  | none => none
  | some db =>
    let tb := progress_hook_total d
    let percent := if tb > 0 then db / tb * 100 else 0
    some (percent, progress_hook_speed_str d, progress_hook_eta_str d)

/-- The shadowed first `_progress_hook` definition (downloader.py lines
29-51, dead code): dispatches on the status tag, relays finished events
as (100, 完成, 0s), and prefers an exact total over an estimated one. -/
def progress_hook_shadowed (d : ProgressEvent) : Option (ℚ × String × String) :=
  if d.status == "downloading" then
    let percent : ℚ :=
      if pyTruthy d.total_bytes then
        d.downloaded_bytes.getD 0 / d.total_bytes.getD 0 * 100
      else if pyTruthy d.total_bytes_estimate then
        d.downloaded_bytes.getD 0 / d.total_bytes_estimate.getD 0 * 100
      else 0
    some (percent, d.speed_str_hint.getD "", d.eta_str_hint.getD "")
  else if d.status == "finished" then some (100, "完成", "0s")
  else none

/-! ## Audio filename correction (downloader.py lines 130-145) -/

/-- The index of the last occurrence of a character in a list, if any. -/
def lastIdxOf (cs : List Char) (c : Char) : Option Nat :=
  ((cs.enum.filter (fun pr => pr.2 == c)).map (fun pr => pr.1)).getLast?

/-- Function `os.path.splitext` with the POSIX separator, as in CPython's
`genericpath._splitext`: the extension begins at the last dot of the
last path component, unless every character of the component before
that dot is itself a dot. -/
def splitext (p : String) : String × String :=
  let cs := p.data
  match lastIdxOf cs '.' with
  | none => (p, "")
  | some di =>
    let fnameIdx : Nat :=
      match lastIdxOf cs '/' with
      | none => 0
      | some si => si + 1
    if fnameIdx ≤ di then
      if (List.range' fnameIdx (di - fnameIdx)).any
          (fun i => cs.getD i '.' != '.') then
        (String.mk (cs.take di), String.mk (cs.drop di))
      else (p, "")
    else (p, "")

/-- The filename correction of downloader.py line 135:
`os.path.splitext(filename)[0] + "." + audio_format`. -/
def download_audio_filename (predicted : String) (audio_format : String) : String :=
  (splitext predicted).1 ++ "." ++ audio_format

/-- The success record returned by `download_audio`
(downloader.py lines 136-142). -/
structure AudioDownloadResult where
  title : String
  filename : String
  duration : Option ℤ
  format : String
  success : Bool
deriving DecidableEq

/-- The success path of `download_audio` (downloader.py lines 130-142),
as a function of the library's extracted info (title, duration), its
predicted filename, and the requested codec. -/
def download_audio_success (title : Option String) (duration : Option ℤ)
    (predicted : String) (audio_format : String) : AudioDownloadResult :=
  { title := title.getD "未知标题"
    filename := download_audio_filename predicted audio_format
    duration := duration
    format := audio_format
    success := true }

/-! ## Settings load (gui.py lines 341-362) -/

/-- Dict `default_settings` (gui.py lines 343-348), parametrised by the home
directory that `os.path.expanduser` substitutes for `~`. -/
def default_settings (home : String) : List (String × String) :=
  [("save_path", home ++ "/Downloads"),
   ("default_resolution", "best"),
   ("default_audio_format", "mp3"),
   ("default_subtitle_lang", "zh-CN")]

/-- Lookup in a settings document (first binding of the key wins, as
in a parsed JSON object whose keys are unique). -/
def lookupSetting (kvs : List (String × String)) (k : String) : Option String :=
  (kvs.find? (fun p => p.1 == k)).map (fun p => p.2)

/-- The backfill loop of gui.py lines 355-357: every default key absent
from the parsed document is appended with its default value. -/
def backfill_defaults (home : String) (stgs : List (String × String)) :
    List (String × String) :=
  (default_settings home).foldl
    (fun acc kv =>
      if (acc.find? (fun p => p.1 == kv.1)).isSome then acc else acc ++ [kv])
    stgs

/-- The observable condition of the persisted settings file: absent,
unreadable/corrupt (any exception from open/json.load), or parsed. -/
inductive SettingsFile where
  | absent
  | unreadable
  | parsed (kvs : List (String × String))

/-- Method `_load_settings` (gui.py lines 341-362): a parsed file is
backfilled; a missing or unreadable file yields the full defaults. -/
def load_settings (home : String) : SettingsFile → List (String × String)
  | .absent => default_settings home
  | .unreadable => default_settings home
  | .parsed kvs => backfill_defaults home kvs

/-! ## DownloadManager and the dispatcher loop (gui.py lines 53-225)

The manager's shared state together with the dispatcher thread's local
`active_tasks` list and, as a model artifact, the set of task ids whose
`_download_task` worker thread has been spawned and has not yet
returned (`workers`): only such tasks can deliver progress callbacks or
completion transitions. -/

/-- Lookup in the task registry `self.tasks` (a dict task id → task). -/
def findTask (tasks : List (Nat × DownloadTask)) (tid : Nat) : Option DownloadTask :=
  (tasks.find? (fun p => p.1 == tid)).map (fun p => p.2)

/-- Registry update: replace the entry bound to `tid` (a no-op when the
id is not registered, matching a dict write to an existing key). -/
def setTasks (tasks : List (Nat × DownloadTask)) (tid : Nat) (t : DownloadTask) :
    List (Nat × DownloadTask) :=
  tasks.map (fun p => if p.1 == tid then (p.1, t) else p)

/-- The manager's state (gui.py lines 56-64) plus the dispatcher's local
`active_tasks` (line 91) and the live-worker model artifact. -/
structure ManagerState where
  tasks : List (Nat × DownloadTask)
  task_queue : List Nat
  max_concurrent : Nat
  active_tasks : List Nat
  workers : List Nat
deriving DecidableEq

/-- Constructor `DownloadManager.__init__` (gui.py lines 56-64): empty registry and
queue, `max_concurrent = 2`, and the dispatcher's active list empty. -/
def initManager : ManagerState :=
  { tasks := []
    task_queue := []
    max_concurrent := 2
    active_tasks := []
    workers := [] }

/-- Convenience: the status recorded for a task id, if registered. -/
def taskStatus (s : ManagerState) (tid : Nat) : Option TaskStatus :=
  (findTask s.tasks tid).map (fun t => t.status)

/-- One iteration of the admission loop body (gui.py lines 95-103): pop
the next queued id; if it is registered and still 等待中, run
`_start_task` (status := 下载中, spawn a worker thread) and append the
id to `active_tasks`; otherwise the id is dropped. -/
def popAdmit (s : ManagerState) : ManagerState :=
  match s.task_queue with
  | [] => s
  | tid :: rest =>
    let s1 := { s with task_queue := rest }
    match findTask s1.tasks tid with
    | some t =>
      if t.status == .pending then
        { s1 with
          tasks := setTasks s1.tasks tid { t with status := .running }
          active_tasks := s1.active_tasks ++ [tid]
          workers := s1.workers ++ [tid] }
      else s1
    | none => s1

/-- The prune of gui.py lines 106-107: keep exactly the tracked ids that
are registered and whose status is not in {已完成, 已取消, 失败}. -/
def pruneActive (tasks : List (Nat × DownloadTask)) (active : List Nat) : List Nat :=
  active.filter (fun tid =>
    match findTask tasks tid with
    | some t => !(t.status == .completed || t.status == .canceled || t.status == .failed)
    | none => false)

/-- Method `DownloadManager.cancel_task` (gui.py lines 175-192).  The second
component is the call's outcome: `.ok b` a normal return of `b`,
`.error` a raised exception.  On a 下载中 task the code first flips the
status via `task.cancel()` and then evaluates
`self.downloader.cancel_download()`; `YouTubeDownloader`
(downloader.py lines 9-27) defines no such attribute, so the lookup
raises before the `return True` is reached. -/
def cancel_task (s : ManagerState) (tid : Nat) : ManagerState × Except String Bool :=
  match findTask s.tasks tid with
  | none => (s, Except.ok false)
  | some t =>
    if t.status == .pending then
      ({ s with tasks := setTasks s.tasks tid (t.cancel).1 }, Except.ok (t.cancel).2)
    else if t.status == .running then
      ({ s with tasks := setTasks s.tasks tid (t.cancel).1 },
       Except.error "AttributeError: YouTubeDownloader object has no attribute cancel_download")
    else (s, Except.ok false)

/-- The interleaved small-step semantics of the manager: dispatcher
admission (guarded by the while-condition of gui.py line 95), the
dispatcher prune, worker-thread progress callbacks and completions
(gui.py lines 129-173; only spawned, unreturned workers act), the
worker's initial cancellation check (lines 132-133), and the UI-thread
requests cancel (state effect of `cancel_task`), pause (lines 194-204),
resume (lines 206-221) and `add_task` (lines 66-78, with a fresh id). -/
inductive Step : ManagerState → ManagerState → Prop where
  | admission (s : ManagerState) :
      s.task_queue ≠ [] → s.active_tasks.length < s.max_concurrent →
      Step s (popAdmit s)
  | prune (s : ManagerState) :
      Step s { s with active_tasks := pruneActive s.tasks s.active_tasks }
  | progress (s : ManagerState) (tid : Nat) (t : DownloadTask) (p : ℚ) (sp e : String) :
      tid ∈ s.workers → findTask s.tasks tid = some t →
      Step s { s with tasks := setTasks s.tasks tid (t.update_progress p sp e) }
  | finish_ok (s : ManagerState) (tid : Nat) (t : DownloadTask) (title fname : String) :
      tid ∈ s.workers → findTask s.tasks tid = some t →
      Step s { s with
        tasks := setTasks s.tasks tid
          { t with status := .completed, progress := 100, title := title, filename := fname }
        workers := s.workers.erase tid }
  | finish_fail (s : ManagerState) (tid : Nat) (t : DownloadTask) :
      tid ∈ s.workers → findTask s.tasks tid = some t →
      Step s { s with
        tasks := setTasks s.tasks tid { t with status := .failed, progress := 0 }
        workers := s.workers.erase tid }
  | early_exit (s : ManagerState) (tid : Nat) :
      tid ∈ s.workers → taskStatus s tid = some .canceled →
      Step s { s with workers := s.workers.erase tid }
  | cancel (s : ManagerState) (tid : Nat) :
      Step s (cancel_task s tid).1
  | pause (s : ManagerState) (tid : Nat) (t : DownloadTask) :
      findTask s.tasks tid = some t → t.status = .running →
      Step s { s with tasks := setTasks s.tasks tid { t with status := .paused } }
  | resume (s : ManagerState) (tid : Nat) (t : DownloadTask) :
      findTask s.tasks tid = some t → t.status = .paused →
      Step s { s with
        tasks := setTasks s.tasks tid { t with status := .pending }
        task_queue := s.task_queue ++ [tid] }
  | add (s : ManagerState) (tid : Nat) (t : DownloadTask) :
      findTask s.tasks tid = none → t.status = .pending →
      Step s { s with
        tasks := s.tasks ++ [(tid, t)]
        task_queue := s.task_queue ++ [tid] }

/-- Reachability along the interleaved semantics. -/
def Reaches (s s' : ManagerState) : Prop := Relation.ReflTransGen Step s s'

/-- Number of registered tasks currently in 下载中 status. -/
def runningCount (s : ManagerState) : Nat :=
  (s.tasks.filter (fun p => p.2.status == .running)).length

/-! ## Theorems for the claims -/

/-- C3: for every task and every call `update_progress(p, s, e)`, the
progress, speed and eta fields are set to the arguments; a percent of
100 leaves the task 已完成 (Completed) and any percent below 100 leaves
it 下载中 (Running). -/
theorem C3_update_progress_contract :
    ∀ (t : DownloadTask) (p : ℚ) (sp e : String),
      (t.update_progress p sp e).progress = p ∧
      (t.update_progress p sp e).speed = sp ∧
      (t.update_progress p sp e).eta = e ∧
      (p = 100 → (t.update_progress p sp e).status = .completed) ∧
      (p < 100 → (t.update_progress p sp e).status = .running) := by
  intro t p sp e
  refine ⟨rfl, rfl, rfl, ?_, ?_⟩
  · intro h
    simp [DownloadTask.update_progress, h]
  · intro h
    simp [DownloadTask.update_progress, h]

/-- Witness for C3 at percent 100 and percent 50. -/
theorem C3_update_progress_contract_witness :
    (DownloadTask.init.update_progress 100 "1.0 MB/s" "0秒").status = .completed ∧
    (DownloadTask.init.update_progress 50 "1.0 MB/s" "10秒").status = .running :=
  ⟨(C3_update_progress_contract DownloadTask.init 100 "1.0 MB/s" "0秒").2.2.2.1 rfl,
   (C3_update_progress_contract DownloadTask.init 50 "1.0 MB/s" "10秒").2.2.2.2 (by norm_num)⟩

/-- C10: 已取消 (Canceled) is not absorbing against progress updates: a
subsequent `update_progress` on a canceled task overwrites the status
with 下载中 when percent < 100 and with 已完成 when percent = 100, so a
late progress callback silently reverts a cancellation. -/
theorem C10_canceled_not_absorbing :
    ∀ (t : DownloadTask) (p : ℚ) (sp e : String), t.status = .canceled →
      ((p < 100 → (t.update_progress p sp e).status = .running) ∧
       (p = 100 → (t.update_progress p sp e).status = .completed)) := by
  intro t p sp e _
  constructor
  · intro h
    simp [DownloadTask.update_progress, h]
  · intro h
    simp [DownloadTask.update_progress, h]

/-- Witness for C10 on a concrete canceled task. -/
theorem C10_canceled_not_absorbing_witness :
    (({ DownloadTask.init with status := .canceled } :
        DownloadTask).update_progress 50 "" "").status = .running ∧
    (({ DownloadTask.init with status := .canceled } :
        DownloadTask).update_progress 100 "" "").status = .completed :=
  ⟨(C10_canceled_not_absorbing { DownloadTask.init with status := .canceled }
      50 "" "" rfl).1 (by norm_num),
   (C10_canceled_not_absorbing { DownloadTask.init with status := .canceled }
      100 "" "" rfl).2 rfl⟩

/-- C2: the subtitle language resolution policy of `download_subtitles`:
a zh-prefixed request scans the ordered Chinese variant list for the
first available code; other requests match verbatim; an unmatched
request falls back to English when available, and otherwise the call
fails with a message naming the requested language and the English
fallback.  Concretely: zh-CN against {zh-Hant, en} resolves to zh-Hant,
fr against {en} resolves to en, and fr against {ja} fails. -/
theorem C2_subtitle_resolution_policy :
    (subtitle_target_or_error "zh-CN" ⟨["zh-Hant"], ["en"]⟩ = Except.ok "zh-Hant") ∧
    (subtitle_target_or_error "fr" ⟨[], ["en"]⟩ = Except.ok "en") ∧
    (subtitle_target_or_error "fr" ⟨["ja"], []⟩ =
      Except.error (subtitle_no_match_error "fr")) ∧
    (∀ lang, ∃ s1 s2 s3,
      subtitle_no_match_error lang = s1 ++ lang ++ (s2 ++ "英文" ++ s3)) ∧
    (∀ lang avail, strStartsWith lang "zh" = false → avail.contains lang = true →
      resolve_subtitle_language lang avail = some lang) ∧
    (∀ lang avail, strStartsWith lang "zh" = false → avail.contains lang = false →
      avail.contains "en" = true →
      resolve_subtitle_language lang avail = some "en") ∧
    (∀ lang avail c, strStartsWith lang "zh" = true →
      chinese_codes.find? (fun x => avail.contains x) = some c →
      resolve_subtitle_language lang avail = some c) ∧
    (∀ lang (info : SubtitleInfo),
      resolve_subtitle_language lang (available_subs info) = none →
      subtitle_target_or_error lang info =
        Except.error (subtitle_no_match_error lang)) := by
  refine ⟨rfl, rfl, rfl, ?_, ?_, ?_, ?_, ?_⟩
  · intro lang
    refine ⟨"该视频既没有", "语言的字幕，也没有", "字幕", ?_⟩
    have hx : ("语言的字幕，也没有" ++ "英文" ++ "字幕" : String) =
        "语言的字幕，也没有英文字幕" := by decide
    rw [hx]
    rfl
  · intro lang avail h1 h2
    simp only [resolve_subtitle_language, h1, h2, Bool.false_eq_true, if_false, if_true]
  · intro lang avail h1 h2 h3
    simp only [resolve_subtitle_language, h1, h2, h3, Bool.false_eq_true, if_false, if_true]
  · intro lang avail c h1 h2
    simp only [resolve_subtitle_language, h1, if_true]
    rw [h2]
  · intro lang info h
    simp only [subtitle_target_or_error, h]

/-- Witness for C2's conditional clauses at concrete languages. -/
theorem C2_subtitle_resolution_policy_witness :
    resolve_subtitle_language "fr" ["fr"] = some "fr" ∧
    resolve_subtitle_language "ja" ["ko", "en"] = some "en" ∧
    resolve_subtitle_language "zh-TW" ["de", "zh-Hans"] = some "zh-Hans" :=
  ⟨C2_subtitle_resolution_policy.2.2.2.2.1 "fr" ["fr"] (by decide) (by decide),
   C2_subtitle_resolution_policy.2.2.2.2.2.1 "ja" ["ko", "en"]
     (by decide) (by decide) (by decide),
   C2_subtitle_resolution_policy.2.2.2.2.2.2.1 "zh-TW" ["de", "zh-Hans"] "zh-Hans"
     (by decide) (by decide)⟩

/-- C8: the success record of `download_audio` reports the library's
predicted filename with its extension replaced by the requested codec;
in particular a predicted `.webm` name with requested format m4a is
reported with a `.m4a` extension. -/
theorem C8_audio_extension_replaced :
    (∀ (title : Option String) (dur : Option ℤ) (predicted fmt : String),
      (download_audio_success title dur predicted fmt).filename =
        (splitext predicted).1 ++ "." ++ fmt ∧
      (download_audio_success title dur predicted fmt).format = fmt ∧
      (download_audio_success title dur predicted fmt).success = true) ∧
    download_audio_filename "My Video.webm" "m4a" = "My Video.m4a" ∧
    (strEndsWith
      (download_audio_success (some "My Video") none "My Video.webm" "m4a").filename
      ".m4a" = true) :=
  ⟨fun _ _ _ _ => ⟨rfl, rfl, rfl⟩, by decide, by decide⟩

/-- A finished event as delivered by the external library at the end of
a transfer (byte counters present and equal, no speed/eta). -/
def finishedEvent : ProgressEvent :=
  { status := "finished"
    downloaded_bytes := some 100
    total_bytes := some 100
    total_bytes_estimate := none
    speed := none
    eta := none
    speed_str_hint := none
    eta_str_hint := none }

/-- C7 counterexample: the effective `_progress_hook` (the second class
definition, which shadows the first) does not relay a finished event as
100% with the completion marker 完成: it ignores the status tag and
reports the unknown-speed marker 未知; the finished→(100, 完成, 0s)
mapping exists only in the shadowed, dead first definition. -/
theorem C7_counterexample :
    progress_hook finishedEvent = some (100, "未知", "未知") ∧
    progress_hook_shadowed finishedEvent = some (100, "完成", "0s") ∧
    ("未知" : String) ≠ "完成" := by
  refine ⟨?_, by decide, by decide⟩
  simp only [progress_hook, finishedEvent, progress_hook_total, pyTruthy,
    progress_hook_speed_str, progress_hook_eta_str, Option.getD_some]
  norm_num

/-- C7 amended: for every event carrying a downloaded-byte count the
effective hook reports downloaded/total·100 using the exact total when
it is present and positive, using the estimated total only otherwise,
and 0% when no (truthy) total is known; the speed string is formatted
in MB/s exactly when the speed is known (truthy), 未知 otherwise;
events without a downloaded-byte count never invoke the callback; and
the status tag is ignored, so finished events receive no special
relay. -/
theorem C7_amended :
    ∀ (d : ProgressEvent),
      (d.downloaded_bytes = none → progress_hook d = none) ∧
      (∀ db t, d.downloaded_bytes = some db → d.total_bytes = some t → 0 < t →
        progress_hook d =
          some (db / t * 100, progress_hook_speed_str d, progress_hook_eta_str d)) ∧
      (∀ db est, d.downloaded_bytes = some db → pyTruthy d.total_bytes = false →
        d.total_bytes_estimate = some est → 0 < est →
        progress_hook d =
          some (db / est * 100, progress_hook_speed_str d, progress_hook_eta_str d)) ∧
      (∀ db, d.downloaded_bytes = some db → pyTruthy d.total_bytes = false →
        pyTruthy d.total_bytes_estimate = false →
        progress_hook d =
          some (0, progress_hook_speed_str d, progress_hook_eta_str d)) ∧
      (∀ sp, d.speed = some sp → sp ≠ 0 →
        progress_hook_speed_str d = fmt1 (sp / 1024 / 1024) ++ " MB/s") ∧
      (pyTruthy d.speed = false → progress_hook_speed_str d = "未知") ∧
      (∀ st, progress_hook { d with status := st } = progress_hook d) := by
  intro d
  refine ⟨?_, ?_, ?_, ?_, ?_, ?_, ?_⟩
  · intro h
    simp [progress_hook, h]
  · intro db t hdb ht hpos
    have htot : progress_hook_total d = t := by
      simp [progress_hook_total, pyTruthy, ht, ne_of_gt hpos]
    simp only [progress_hook, hdb, htot]
    rw [if_pos hpos]
  · intro db est hdb hfalse hest hpos
    have htot : progress_hook_total d = est := by
      simp [progress_hook_total, hfalse, hest]
    simp only [progress_hook, hdb, htot]
    rw [if_pos hpos]
  · intro db hdb hfalse hestf
    have htot : progress_hook_total d = 0 := by
      cases hest : d.total_bytes_estimate with
      | none => simp [progress_hook_total, hfalse, hest]
      | some x =>
        rw [hest] at hestf
        have hx : x = 0 := by
          simpa [pyTruthy] using hestf
        simp [progress_hook_total, hfalse, hest, hx]
    simp only [progress_hook, hdb, htot]
    norm_num
  · intro sp hsp hne
    simp [progress_hook_speed_str, hsp, hne]
  · intro hfalse
    cases hsp : d.speed with
    | none => simp [progress_hook_speed_str, hsp]
    | some x =>
      rw [hsp] at hfalse
      have hx : x = 0 := by
        simpa [pyTruthy] using hfalse
      simp [progress_hook_speed_str, hsp, hx]
  · intro st
    rfl

/-- A concrete downloading event with an exact total of 200 bytes and
50 bytes downloaded. -/
def halfDownloadedEvent : ProgressEvent :=
  { status := "downloading"
    downloaded_bytes := some 50
    total_bytes := some 200
    total_bytes_estimate := none
    speed := some 2097152
    eta := some 30
    speed_str_hint := none
    eta_str_hint := none }

/-- Witness for C7 amended at `halfDownloadedEvent`: 25%. -/
theorem C7_amended_witness :
    progress_hook halfDownloadedEvent =
      some (25, progress_hook_speed_str halfDownloadedEvent,
        progress_hook_eta_str halfDownloadedEvent) := by
  have h := (C7_amended halfDownloadedEvent).2.1 50 200 rfl rfl (by norm_num)
  rw [h]
  norm_num

/-- A manager whose only task (id 0) is 下载中 and tracked as active. -/
def runningOnlyState : ManagerState :=
  { tasks := [(0, { DownloadTask.init with status := .running })]
    task_queue := []
    max_concurrent := 2
    active_tasks := [0]
    workers := [0] }

/-- A manager whose only task (id 0) is still 等待中 in the queue. -/
def pendingOnlyState : ManagerState :=
  { tasks := [(0, DownloadTask.init)]
    task_queue := [0]
    max_concurrent := 2
    active_tasks := []
    workers := [] }

/-- A manager whose only task (id 0) is 已暂停. -/
def pausedOnlyState : ManagerState :=
  { tasks := [(0, { DownloadTask.init with status := .paused })]
    task_queue := []
    max_concurrent := 2
    active_tasks := [0]
    workers := [0] }

/-- C4: evaluation of `cancel_task` on each status class.  Cancelling a
等待中 task flips it to 已取消 and returns True, and cancelling a task
in another status (or an unknown id) returns False unchanged — but
cancelling a 下载中 task does NOT return True as claimed: after
flipping the status, the call evaluates
`self.downloader.cancel_download()` and `YouTubeDownloader` has no such
attribute (downloader.py removed it, line 20), so an AttributeError is
raised instead of reaching `return True`. -/
theorem C4_cancel_running_raises :
    (cancel_task runningOnlyState 0).2 =
      Except.error "AttributeError: YouTubeDownloader object has no attribute cancel_download" ∧
    taskStatus (cancel_task runningOnlyState 0).1 0 = some .canceled ∧
    (cancel_task pendingOnlyState 0).2 = Except.ok true ∧
    taskStatus (cancel_task pendingOnlyState 0).1 0 = some .canceled ∧
    (cancel_task pausedOnlyState 0).2 = Except.ok false ∧
    (cancel_task pausedOnlyState 0).1 = pausedOnlyState ∧
    (cancel_task initManager 99).2 = Except.ok false :=
  ⟨rfl, by decide, rfl, by decide, rfl, by decide, rfl⟩

/-- C5 counterexample: the dispatcher's prune does not remove a task
that left 下载中 for 已暂停 — a paused task keeps occupying its
concurrency slot, contrary to the claim that Paused tasks are removed
from the active-set tracking list. -/
theorem C5_counterexample :
    pruneActive [(0, { DownloadTask.init with status := .paused })] [0] = [0] ∧
    ({ DownloadTask.init with status := .paused } : DownloadTask).status = .paused := by
  refine ⟨by decide, rfl⟩

/-- C5 amended: the prune keeps exactly the tracked ids that are
registered with a status outside {已完成, 已取消, 失败}; ids in the
terminal statuses (or unregistered) are removed, while 已暂停 (and any
other non-terminal status) remains tracked and keeps occupying a
concurrency slot. -/
theorem C5_amended :
    ∀ (tasks : List (Nat × DownloadTask)) (active : List Nat) (tid : Nat),
      tid ∈ pruneActive tasks active ↔
        (tid ∈ active ∧ ∃ t, findTask tasks tid = some t ∧
          t.status ≠ .completed ∧ t.status ≠ .canceled ∧ t.status ≠ .failed) := by
  intro tasks active tid
  simp only [pruneActive, List.mem_filter]
  constructor
  · rintro ⟨hmem, hcond⟩
    refine ⟨hmem, ?_⟩
    cases hf : findTask tasks tid with
    | none => rw [hf] at hcond; simp at hcond
    | some t =>
      rw [hf] at hcond
      simp only [Bool.not_eq_eq_eq_not, Bool.not_true, Bool.or_eq_false_iff,
        beq_eq_false_iff_ne] at hcond
      exact ⟨t, rfl, hcond.1.1, hcond.1.2, hcond.2⟩
  · rintro ⟨hmem, t, hf, h1, h2, h3⟩
    refine ⟨hmem, ?_⟩
    rw [hf]
    simp only [Bool.not_eq_eq_eq_not, Bool.not_true, Bool.or_eq_false_iff,
      beq_eq_false_iff_ne]
    exact ⟨⟨h1, h2⟩, h3⟩

/-! ## Helper lemmas about settings lookup -/

/-- Appending entries on the right cannot change a lookup that already
succeeds. -/
lemma lookupSetting_append_of_isSome (l1 l2 : List (String × String)) (k : String)
    (h : (l1.find? (fun p => p.1 == k)).isSome) :
    lookupSetting (l1 ++ l2) k = lookupSetting l1 k := by
  simp only [lookupSetting, List.find?_append]
  obtain ⟨q, hq⟩ := Option.isSome_iff_exists.mp h
  rw [hq]
  rfl

/-- A successful lookup survives the backfill fold. -/
lemma backfill_foldl_present (ds : List (String × String)) :
    ∀ (acc : List (String × String)) (k v : String),
      lookupSetting acc k = some v →
      lookupSetting
        (ds.foldl (fun acc kv =>
          if (acc.find? (fun p => p.1 == kv.1)).isSome then acc else acc ++ [kv]) acc)
        k = some v := by
  induction ds with
  | nil => intro acc k v h; simpa using h
  | cons d rest ih =>
    intro acc k v h
    simp only [List.foldl_cons]
    apply ih
    have hs : (acc.find? (fun p => p.1 == k)).isSome := by
      cases hf : acc.find? (fun p => p.1 == k) with
      | none => rw [lookupSetting, hf] at h; simp at h
      | some q => rfl
    by_cases hd : (acc.find? (fun p => p.1 == d.1)).isSome
    · rw [if_pos hd]; exact h
    · rw [if_neg hd, lookupSetting_append_of_isSome _ _ _ hs]; exact h

/-- A failed lookup is resolved by the backfill fold exactly as by the
default list itself. -/
lemma backfill_foldl_absent (ds : List (String × String)) :
    ∀ (acc : List (String × String)) (k : String),
      lookupSetting acc k = none →
      lookupSetting
        (ds.foldl (fun acc kv =>
          if (acc.find? (fun p => p.1 == kv.1)).isSome then acc else acc ++ [kv]) acc)
        k = lookupSetting ds k := by
  induction ds with
  | nil => intro acc k h; simpa using h
  | cons d rest ih =>
    intro acc k h
    have hnone : acc.find? (fun p => p.1 == k) = none := by
      cases hf : acc.find? (fun p => p.1 == k) with
      | none => rfl
      | some q => rw [lookupSetting, hf] at h; simp at h
    simp only [List.foldl_cons]
    by_cases hk : d.1 = k
    · have hdd : acc.find? (fun p => p.1 == d.1) = none := by rw [hk]; exact hnone
      rw [if_neg (by simp [hdd])]
      have hsing : lookupSetting (acc ++ [d]) k = some d.2 := by
        simp only [lookupSetting, List.find?_append, hnone, Option.none_or]
        simp [List.find?, hk]
      rw [backfill_foldl_present rest _ _ _ hsing]
      simp [lookupSetting, List.find?, hk]
    · have hcons : lookupSetting (d :: rest) k = lookupSetting rest k := by
        simp only [lookupSetting]
        rw [List.find?_cons_of_neg]
        simp [hk]
      rw [hcons]
      by_cases hd : (acc.find? (fun p => p.1 == d.1)).isSome
      · rw [if_pos hd]
        exact ih acc k h
      · rw [if_neg hd]
        apply ih
        simp only [lookupSetting, List.find?_append, hnone, Option.none_or]
        rw [List.find?_cons_of_neg]
        · rfl
        · simp [hk]

/-- C9: loading a parsed, partially-populated settings file keeps every
persisted key at its persisted value and resolves every key absent from
the file (in particular the four documented keys) to its documented
default; a missing or unreadable/corrupt file yields exactly the full
defaults. -/
theorem C9_settings_load :
    (∀ home kvs k v, lookupSetting kvs k = some v →
      lookupSetting (load_settings home (.parsed kvs)) k = some v) ∧
    (∀ home kvs k, lookupSetting kvs k = none →
      lookupSetting (load_settings home (.parsed kvs)) k =
        lookupSetting (default_settings home) k) ∧
    (∀ home, load_settings home .absent = default_settings home ∧
      load_settings home .unreadable = default_settings home) :=
  ⟨fun home kvs k v h => backfill_foldl_present (default_settings home) kvs k v h,
   fun home kvs k h => backfill_foldl_absent (default_settings home) kvs k h,
   fun _ => ⟨rfl, rfl⟩⟩

/-- Witness for C9: a file persisting only `save_path` keeps that value
and backfills `default_resolution` with its default. -/
theorem C9_settings_load_witness :
    lookupSetting (load_settings "/Users/alex" (.parsed [("save_path", "/data")]))
      "save_path" = some "/data" ∧
    lookupSetting (load_settings "/Users/alex" (.parsed [("save_path", "/data")]))
      "default_resolution" = some "best" :=
  ⟨C9_settings_load.1 "/Users/alex" [("save_path", "/data")] "save_path" "/data" (by decide),
   (C9_settings_load.2.1 "/Users/alex" [("save_path", "/data")] "default_resolution"
      (by decide)).trans (by decide)⟩

/-! ## Helper lemmas about the task registry -/

/-- Unfolding lemma for `findTask` on a cons cell. -/
lemma findTask_cons (q : Nat × DownloadTask) (l : List (Nat × DownloadTask)) (tid : Nat) :
    findTask (q :: l) tid = if q.1 == tid then some q.2 else findTask l tid := by
  by_cases hq : q.1 = tid
  · simp [findTask, List.find?_cons_of_pos, hq]
  · rw [if_neg (by simp [hq])]
    simp only [findTask]
    rw [List.find?_cons_of_neg]
    simp [hq]

/-- A registry write to a different id does not change a lookup. -/
lemma findTask_setTasks_ne (ts : List (Nat × DownloadTask)) (tid tid' : Nat)
    (t : DownloadTask) (h : tid' ≠ tid) :
    findTask (setTasks ts tid t) tid' = findTask ts tid' := by
  induction ts with
  | nil => rfl
  | cons p rest ih =>
    simp only [setTasks, List.map_cons]
    by_cases hc : p.1 = tid
    · rw [if_pos (by simp [hc])]
      rw [findTask_cons, findTask_cons]
      rw [if_neg (by simp [hc]; exact fun he => h he.symm),
        if_neg (by simp [hc]; exact fun he => h he.symm)]
      exact ih
    · rw [if_neg (by simp [hc])]
      rw [findTask_cons, findTask_cons]
      by_cases hp : p.1 = tid'
      · rw [if_pos (by simp [hp]), if_pos (by simp [hp])]
      · rw [if_neg (by simp [hp]), if_neg (by simp [hp])]
        exact ih

/-- A registry write to a registered id is observed by the lookup. -/
lemma findTask_setTasks_eq (ts : List (Nat × DownloadTask)) (tid : Nat)
    (t u : DownloadTask) (h : findTask ts tid = some u) :
    findTask (setTasks ts tid t) tid = some t := by
  induction ts with
  | nil => simp [findTask] at h
  | cons p rest ih =>
    simp only [setTasks, List.map_cons]
    by_cases hc : p.1 = tid
    · rw [if_pos (by simp [hc])]
      rw [findTask_cons]
      rw [if_pos (by simp [hc])]
    · rw [if_neg (by simp [hc])]
      rw [findTask_cons]
      rw [if_neg (by simp [hc])]
      rw [findTask_cons] at h
      rw [if_neg (by simp [hc])] at h
      exact ih h

/-- Appending fresh entries on the right cannot change a successful
lookup. -/
lemma findTask_append_of_isSome (ts l : List (Nat × DownloadTask)) (tid : Nat)
    (u : DownloadTask) (h : findTask ts tid = some u) :
    findTask (ts ++ l) tid = some u := by
  have hs : ∃ q, ts.find? (fun p => p.1 == tid) = some q := by
    cases hf : ts.find? (fun p => p.1 == tid) with
    | none => rw [findTask, hf] at h; simp at h
    | some q => exact ⟨q, rfl⟩
  obtain ⟨q, hq⟩ := hs
  simp only [findTask, List.find?_append, hq, Option.or_some]
  rw [findTask, hq] at h
  exact h

/-- The invariant of a task canceled while still queued: registered with
status 已取消, no live worker thread, and not tracked as active. -/
def canceledOrphan (s : ManagerState) (tid : Nat) : Prop :=
  taskStatus s tid = some .canceled ∧ tid ∉ s.workers ∧ tid ∉ s.active_tasks

/-- Every step of the interleaved semantics preserves `canceledOrphan`:
the admission check skips a non-等待中 id, no worker exists to revert
the status, and the UI requests leave a 已取消 task unchanged. -/
lemma canceledOrphan_step (s s' : ManagerState) (tid : Nat)
    (hstep : Step s s') (h : canceledOrphan s tid) : canceledOrphan s' tid := by
  obtain ⟨hstat, hw, ha⟩ := h
  have hsome : ∃ t, findTask s.tasks tid = some t ∧ t.status = .canceled := by
    cases hf : findTask s.tasks tid with
    | none => rw [taskStatus, hf] at hstat; simp at hstat
    | some t =>
      rw [taskStatus, hf] at hstat
      exact ⟨t, rfl, by simpa using hstat⟩
  obtain ⟨tc, hftc, htc⟩ := hsome
  cases hstep with
  | admission hq hlen =>
    cases hqq : s.task_queue with
    | nil => simp only [popAdmit, hqq]; exact ⟨hstat, hw, ha⟩
    | cons q rest =>
      cases hf : findTask s.tasks q with
      | none =>
        simp only [popAdmit, hqq, hf]
        exact ⟨hstat, hw, ha⟩
      | some t =>
        simp only [popAdmit, hqq, hf]
        by_cases hts : t.status = .pending
        · have hqt : q ≠ tid := by
            intro he
            rw [he, hftc] at hf
            rw [(Option.some_inj.mp hf).symm] at hts
            rw [htc] at hts
            exact absurd hts (by simp)
          rw [if_pos (by simp [hts])]
          refine ⟨?_, ?_, ?_⟩
          · rw [taskStatus]
            rw [findTask_setTasks_ne _ _ _ _ (fun he => hqt he.symm)]
            exact hstat
          · intro hmem
            rcases List.mem_append.mp hmem with hmem | hmem
            · exact hw hmem
            · exact hqt (List.mem_singleton.mp hmem).symm
          · intro hmem
            rcases List.mem_append.mp hmem with hmem | hmem
            · exact ha hmem
            · exact hqt (List.mem_singleton.mp hmem).symm
        · rw [if_neg (by simp [hts])]
          exact ⟨hstat, hw, ha⟩
  | prune =>
    exact ⟨hstat, hw, fun hmem => ha (List.mem_filter.mp hmem).1⟩
  | progress tid' t p sp e hw' hf =>
    have hne : tid ≠ tid' := fun he => hw (he ▸ hw')
    refine ⟨?_, hw, ha⟩
    rw [taskStatus, findTask_setTasks_ne _ _ _ _ hne]
    exact hstat
  | finish_ok tid' t title fname hw' hf =>
    have hne : tid ≠ tid' := fun he => hw (he ▸ hw')
    refine ⟨?_, fun hmem => hw (List.mem_of_mem_erase hmem), ha⟩
    rw [taskStatus, findTask_setTasks_ne _ _ _ _ hne]
    exact hstat
  | finish_fail tid' t hw' hf =>
    have hne : tid ≠ tid' := fun he => hw (he ▸ hw')
    refine ⟨?_, fun hmem => hw (List.mem_of_mem_erase hmem), ha⟩
    rw [taskStatus, findTask_setTasks_ne _ _ _ _ hne]
    exact hstat
  | early_exit tid' hw' hc =>
    exact ⟨hstat, fun hmem => hw (List.mem_of_mem_erase hmem), ha⟩
  | cancel tid' =>
    cases hf : findTask s.tasks tid' with
    | none => simp only [cancel_task, hf]; exact ⟨hstat, hw, ha⟩
    | some t =>
      by_cases h1 : t.status = .pending
      · have hne : tid ≠ tid' := by
          intro he
          rw [← he, hftc] at hf
          rw [(Option.some_inj.mp hf).symm, htc] at h1
          exact absurd h1 (by simp)
        simp only [cancel_task, hf]
        rw [if_pos (by simp [h1])]
        refine ⟨?_, hw, ha⟩
        rw [taskStatus, findTask_setTasks_ne _ _ _ _ hne]
        exact hstat
      · by_cases h2 : t.status = .running
        · have hne : tid ≠ tid' := by
            intro he
            rw [← he, hftc] at hf
            rw [(Option.some_inj.mp hf).symm, htc] at h2
            exact absurd h2 (by simp)
          simp only [cancel_task, hf]
          rw [if_neg (by simp [h1]), if_pos (by simp [h2])]
          refine ⟨?_, hw, ha⟩
          rw [taskStatus, findTask_setTasks_ne _ _ _ _ hne]
          exact hstat
        · simp only [cancel_task, hf]
          rw [if_neg (by simp [h1]), if_neg (by simp [h2])]
          exact ⟨hstat, hw, ha⟩
  | pause tid' t hf hrun =>
    have hne : tid ≠ tid' := by
      intro he
      rw [← he, hftc] at hf
      rw [(Option.some_inj.mp hf).symm, htc] at hrun
      exact absurd hrun (by simp)
    refine ⟨?_, hw, ha⟩
    rw [taskStatus, findTask_setTasks_ne _ _ _ _ hne]
    exact hstat
  | resume tid' t hf hpau =>
    have hne : tid ≠ tid' := by
      intro he
      rw [← he, hftc] at hf
      rw [(Option.some_inj.mp hf).symm, htc] at hpau
      exact absurd hpau (by simp)
    refine ⟨?_, hw, ha⟩
    rw [taskStatus, findTask_setTasks_ne _ _ _ _ hne]
    exact hstat
  | add tid' t hf hp =>
    refine ⟨?_, hw, ha⟩
    rw [taskStatus, findTask_append_of_isSome _ _ _ _ hftc]
    rw [taskStatus, hftc] at hstat
    exact hstat

/-- C6: a task canceled while it is still 等待中 in the queue (no worker
spawned, not tracked as active) is never subsequently admitted: along
every execution from the cancellation on, its status remains 已取消 (so
it is never started, in particular never 下载中), it never acquires a
worker thread, and it is never added to the active-set list — when its
id is popped, the 等待中 check fails and the id is dropped. -/
theorem C6_canceled_pending_never_admitted :
    ∀ (s : ManagerState) (tid : Nat),
      taskStatus s tid = some .pending → tid ∉ s.workers → tid ∉ s.active_tasks →
      ∀ s', Reaches (cancel_task s tid).1 s' →
        taskStatus s' tid = some .canceled ∧ tid ∉ s'.workers ∧ tid ∉ s'.active_tasks := by
  intro s tid hp hw ha s' hr
  have hsome : ∃ t, findTask s.tasks tid = some t ∧ t.status = .pending := by
    cases hf : findTask s.tasks tid with
    | none => rw [taskStatus, hf] at hp; simp at hp
    | some t =>
      rw [taskStatus, hf] at hp
      exact ⟨t, rfl, by simpa using hp⟩
  obtain ⟨t, hft, hts⟩ := hsome
  have h0 : canceledOrphan (cancel_task s tid).1 tid := by
    simp only [cancel_task, hft]
    rw [if_pos (by simp [hts])]
    refine ⟨?_, hw, ha⟩
    rw [taskStatus, findTask_setTasks_eq _ _ _ _ hft]
    rfl
  show canceledOrphan s' tid
  induction hr with
  | refl => exact h0
  | tail hsteps hstep ih => exact canceledOrphan_step _ _ _ hstep ih

/-- Witness for C6: cancel the single queued task of `pendingOnlyState`
and take one dispatcher admission step; the task stays 已取消 and is
never admitted. -/
theorem C6_canceled_pending_never_admitted_witness :
    taskStatus (popAdmit (cancel_task pendingOnlyState 0).1) 0 = some .canceled ∧
    0 ∉ (popAdmit (cancel_task pendingOnlyState 0).1).workers ∧
    0 ∉ (popAdmit (cancel_task pendingOnlyState 0).1).active_tasks :=
  C6_canceled_pending_never_admitted pendingOnlyState 0 (by decide)
    (by decide) (by decide) (popAdmit (cancel_task pendingOnlyState 0).1)
    (Relation.ReflTransGen.single (Step.admission _ (by decide) (by decide)))

/-! ## The admission cap -/

/-- One admission-loop iteration grows the active list by at most one
entry. -/
lemma popAdmit_active_le (s : ManagerState) :
    (popAdmit s).active_tasks.length ≤ s.active_tasks.length + 1 := by
  cases hq : s.task_queue with
  | nil => simp [popAdmit, hq]
  | cons q rest =>
    cases hf : findTask s.tasks q with
    | none => simp [popAdmit, hq, hf]
    | some t =>
      by_cases hts : t.status = .pending
      · simp [popAdmit, hq, hf, hts]
      · simp only [popAdmit, hq, hf]
        rw [if_neg (by simp [hts])]
        simp

/-- One admission-loop iteration never changes the configured cap. -/
lemma popAdmit_max (s : ManagerState) :
    (popAdmit s).max_concurrent = s.max_concurrent := by
  cases hq : s.task_queue with
  | nil => simp [popAdmit, hq]
  | cons q rest =>
    cases hf : findTask s.tasks q with
    | none => simp [popAdmit, hq, hf]
    | some t =>
      by_cases hts : t.status = .pending
      · simp [popAdmit, hq, hf, hts]
      · simp only [popAdmit, hq, hf]
        rw [if_neg (by simp [hts])]

/-- Function `cancel_task` never changes the active list or the configured cap. -/
lemma cancel_task_active_max (s : ManagerState) (tid : Nat) :
    (cancel_task s tid).1.active_tasks = s.active_tasks ∧
    (cancel_task s tid).1.max_concurrent = s.max_concurrent := by
  cases hf : findTask s.tasks tid with
  | none => simp [cancel_task, hf]
  | some t =>
    by_cases h1 : t.status = .pending
    · simp only [cancel_task, hf]
      rw [if_pos (by simp [h1])]
      exact ⟨rfl, rfl⟩
    · by_cases h2 : t.status = .running
      · simp only [cancel_task, hf]
        rw [if_neg (by simp [h1]), if_pos (by simp [h2])]
        exact ⟨rfl, rfl⟩
      · simp only [cancel_task, hf]
        rw [if_neg (by simp [h1]), if_neg (by simp [h2])]
        exact ⟨rfl, rfl⟩

/-- No step changes the configured cap. -/
lemma step_max_eq (s s' : ManagerState) (hstep : Step s s') :
    s'.max_concurrent = s.max_concurrent := by
  cases hstep with
  | admission hq hlen => exact popAdmit_max s
  | prune => rfl
  | progress tid' t p sp e hw' hf => rfl
  | finish_ok tid' t title fname hw' hf => rfl
  | finish_fail tid' t hw' hf => rfl
  | early_exit tid' hw' hc => rfl
  | cancel tid' => exact (cancel_task_active_max s tid').2
  | pause tid' t hf hrun => rfl
  | resume tid' t hf hpau => rfl
  | add tid' t hf hp => rfl

/-- Single-step preservation of the active-list bound. -/
lemma step_active_le (s s' : ManagerState) (hstep : Step s s')
    (hle : s.active_tasks.length ≤ s.max_concurrent) :
    s'.active_tasks.length ≤ s'.max_concurrent := by
  cases hstep with
  | admission hq hlen =>
    calc (popAdmit s).active_tasks.length
        ≤ s.active_tasks.length + 1 := popAdmit_active_le s
      _ ≤ s.max_concurrent := hlen
      _ = (popAdmit s).max_concurrent := (popAdmit_max s).symm
  | prune => exact le_trans (List.length_filter_le _ _) hle
  | progress tid' t p sp e hw' hf => exact hle
  | finish_ok tid' t title fname hw' hf => exact hle
  | finish_fail tid' t hw' hf => exact hle
  | early_exit tid' hw' hc => exact hle
  | cancel tid' =>
    rw [(cancel_task_active_max s tid').1, (cancel_task_active_max s tid').2]
    exact hle
  | pause tid' t hf hrun => exact hle
  | resume tid' t hf hpau => exact hle
  | add tid' t hf hp => exact hle

/-- C1 amended: the dispatcher admits a new task only while the tracked
active list has fewer than `max_concurrent` entries, and along every
execution the tracked active list never exceeds `max_concurrent` — but
this bounds the tracked list, not the number of tasks in 下载中 status
(see the counterexample: a canceled task's late progress callback can
push the Running count above the cap). -/
theorem C1_amended :
    (∀ s s', Step s s' → s.active_tasks.length < s'.active_tasks.length →
      s.active_tasks.length < s.max_concurrent) ∧
    (∀ s s', Reaches s s' → s.active_tasks.length ≤ s.max_concurrent →
      s'.active_tasks.length ≤ s'.max_concurrent) := by
  constructor
  · intro s s' hstep hgrow
    cases hstep with
    | admission hq hlen => exact hlen
    | prune => exact absurd hgrow (not_lt.mpr (List.length_filter_le _ _))
    | progress tid' t p sp e hw' hf => exact absurd hgrow (lt_irrefl _)
    | finish_ok tid' t title fname hw' hf => exact absurd hgrow (lt_irrefl _)
    | finish_fail tid' t hw' hf => exact absurd hgrow (lt_irrefl _)
    | early_exit tid' hw' hc => exact absurd hgrow (lt_irrefl _)
    | cancel tid' =>
      rw [(cancel_task_active_max s tid').1] at hgrow
      exact absurd hgrow (lt_irrefl _)
    | pause tid' t hf hrun => exact absurd hgrow (lt_irrefl _)
    | resume tid' t hf hpau => exact absurd hgrow (lt_irrefl _)
    | add tid' t hf hp => exact absurd hgrow (lt_irrefl _)
  · intro s s' hr hle
    induction hr with
    | refl => exact hle
    | tail hsteps hstep ih => exact step_active_le _ _ hstep ih

/-- Witness for C1 amended: one admission step from a fresh single-task
manager respects and preserves the cap. -/
theorem C1_amended_witness :
    pendingOnlyState.active_tasks.length < pendingOnlyState.max_concurrent ∧
    (popAdmit pendingOnlyState).active_tasks.length ≤
      (popAdmit pendingOnlyState).max_concurrent :=
  ⟨C1_amended.1 pendingOnlyState (popAdmit pendingOnlyState)
      (Step.admission _ (by decide) (by decide)) (by decide),
   C1_amended.2 pendingOnlyState (popAdmit pendingOnlyState)
      (Relation.ReflTransGen.single (Step.admission _ (by decide) (by decide)))
      (by decide)⟩

/-! ## C1 counterexample trace: three tasks 下载中 under a cap of 2 -/

/-- Three pending tasks submitted to a manager with cap 2. -/
def c1Start : ManagerState :=
  { tasks := [(0, DownloadTask.init), (1, DownloadTask.init), (2, DownloadTask.init)]
    task_queue := [0, 1, 2]
    max_concurrent := 2
    active_tasks := []
    workers := [] }

/-- Task 0 admitted. -/
def c1AfterAdmit0 : ManagerState := popAdmit c1Start

/-- Task 1 admitted; the cap of 2 is reached. -/
def c1AfterAdmit1 : ManagerState := popAdmit c1AfterAdmit0

/-- The user cancels task 0 while it is 下载中: its status flips to
已取消 (the subsequent AttributeError is raised on the UI thread after
the flip and does not undo it). -/
def c1AfterCancel : ManagerState := (cancel_task c1AfterAdmit1 0).1

/-- The dispatcher prunes the 已取消 task from the active list, freeing
a concurrency slot while task 0's worker thread is still alive. -/
def c1AfterPrune : ManagerState :=
  { c1AfterCancel with
    active_tasks := pruneActive c1AfterCancel.tasks c1AfterCancel.active_tasks }

/-- Task 0's registry entry after the cancellation. -/
def c1CanceledTask : DownloadTask := { DownloadTask.init with status := .canceled }

/-- Task 0's still-running transfer delivers a late progress callback:
`update_progress(50, ...)` silently flips it back to 下载中. -/
def c1AfterLateProgress : ManagerState :=
  { c1AfterPrune with
    tasks := setTasks c1AfterPrune.tasks 0 (c1CanceledTask.update_progress 50 "" "") }

/-- The dispatcher, seeing one free slot, admits task 2. -/
def c1Final : ManagerState := popAdmit c1AfterLateProgress

/-- C1 counterexample: from three submitted tasks under the hard-coded
cap of 2, a reachable state of the interleaved semantics has three
tasks simultaneously in 下载中 status: cancel a running task (its slot
is pruned), let its still-live worker deliver a late progress callback
(reverting it to 下载中), and admit the third task into the freed
slot. -/
theorem C1_counterexample :
    Reaches c1Start c1Final ∧ c1Final.max_concurrent = 2 ∧
    runningCount c1Final = 3 := by
  refine ⟨?_, by decide, by decide⟩
  have h1 : Step c1Start c1AfterAdmit0 := Step.admission _ (by decide) (by decide)
  have h2 : Step c1AfterAdmit0 c1AfterAdmit1 := Step.admission _ (by decide) (by decide)
  have h3 : Step c1AfterAdmit1 c1AfterCancel := Step.cancel _ 0
  have h4 : Step c1AfterCancel c1AfterPrune := Step.prune _
  have h5 : Step c1AfterPrune c1AfterLateProgress :=
    Step.progress _ 0 c1CanceledTask 50 "" "" (by decide) (by decide)
  have h6 : Step c1AfterLateProgress c1Final := Step.admission _ (by decide) (by decide)
  exact Relation.ReflTransGen.head h1 (Relation.ReflTransGen.head h2
    (Relation.ReflTransGen.head h3 (Relation.ReflTransGen.head h4
      (Relation.ReflTransGen.head h5 (Relation.ReflTransGen.single h6)))))

end YTDL
